import Mathlib

set_option maxRecDepth 100000

/-!
Verification of the invoice-rag repository: a shallow embedding of the
document ingestion pipeline (src/services/ingestion/data.py) and the
retrieval-augmented chat pipeline (src/services/chat/main.py), with theorems
settling the specified properties.  External collaborators (Qdrant, Redis,
the Gemini API, the SentenceTransformer model, the filesystem and OCR
libraries) are modelled as environment records whose fields give the outcome
of each external call; exceptions are modelled with `Except`.
-/

/-! ## Python string primitives -/

/-- Whitespace test used to model Python `str.strip()`. -/
def wsChar (c : Char) : Bool := c.isWhitespace

/-- Model of Python `str.strip()` on character lists: drop whitespace from the
front, then from the back. -/
def pstripL (l : List Char) : List Char := (l.dropWhile wsChar).rdropWhile wsChar

/-- Model of Python `str.strip()`. -/
def pstrip (s : String) : String := String.mk (pstripL s.data)

/-- Model of Python `str.lower()` (ASCII case folding). -/
def plower (s : String) : String := String.mk (s.data.map Char.toLower)

/-! ## SHA-256 (hashlib.sha256(...).hexdigest())

A direct implementation over `Nat` with explicit reduction modulo 2^32.
Bitwise operations are computed arithmetically, bit by bit over 32 bits. -/

/-- Reduce to a 32-bit word. -/
def w32 (n : Nat) : Nat := n % 4294967296

/-- Combine two numbers bit by bit (over `k` low bits) with a per-bit function. -/
def bitsOp (f : Nat → Nat → Nat) : Nat → Nat → Nat → Nat
  | 0, _, _ => 0
  | k + 1, a, b => f (a % 2) (b % 2) + 2 * bitsOp f k (a / 2) (b / 2)

/-- 32-bit exclusive or. -/
def xor32 (a b : Nat) : Nat := bitsOp (fun x y => (x + y) % 2) 32 a b

/-- 32-bit bitwise and. -/
def and32 (a b : Nat) : Nat := bitsOp (fun x y => x * y) 32 a b

/-- 32-bit bitwise complement. -/
def not32 (a : Nat) : Nat := 4294967295 - a

/-- Logical right shift. -/
def shr (x n : Nat) : Nat := x / 2 ^ n

/-- 32-bit right rotation (the two shifted parts occupy disjoint bits, so the
bitwise or is an addition). -/
def rotr (x n : Nat) : Nat := w32 (x / 2 ^ n + x * 2 ^ (32 - n))

/-- SHA-256 round constants (FIPS 180-4, written in decimal). -/
def sha256K : List Nat :=
  [1116352408, 1899447441, 3049323471, 3921009573, 961987163, 1508970993,
   2453635748, 2870763221, 3624381080, 310598401, 607225278, 1426881987,
   1925078388, 2162078206, 2614888103, 3248222580, 3835390401, 4022224774,
   264347078, 604807628, 770255983, 1249150122, 1555081692, 1996064986,
   2554220882, 2821834349, 2952996808, 3210313671, 3336571891, 3584528711,
   113926993, 338241895, 666307205, 773529912, 1294757372, 1396182291,
   1695183700, 1986661051, 2177026350, 2456956037, 2730485921, 2820302411,
   3259730800, 3345764771, 3516065817, 3600352804, 4094571909, 275423344,
   430227734, 506948616, 659060556, 883997877, 958139571, 1322822218,
   1537002063, 1747873779, 1955562222, 2024104815, 2227730452, 2361852424,
   2428436474, 2756734187, 3204031479, 3329325298]

/-- SHA-256 initial hash state (FIPS 180-4, written in decimal). -/
def shaH0 : List Nat :=
  [1779033703, 3144134277, 1013904242, 2773480762,
   1359893119, 2600822924, 528734635, 1541459225]

/-- SHA-256 big sigma 0. -/
def bigS0 (x : Nat) : Nat := xor32 (xor32 (rotr x 2) (rotr x 13)) (rotr x 22)

/-- SHA-256 big sigma 1. -/
def bigS1 (x : Nat) : Nat := xor32 (xor32 (rotr x 6) (rotr x 11)) (rotr x 25)

/-- SHA-256 small sigma 0. -/
def smallS0 (x : Nat) : Nat := xor32 (xor32 (rotr x 7) (rotr x 18)) (shr x 3)

/-- SHA-256 small sigma 1. -/
def smallS1 (x : Nat) : Nat := xor32 (xor32 (rotr x 17) (rotr x 19)) (shr x 10)

/-- SHA-256 choice function. -/
def shaCh (e f g : Nat) : Nat := xor32 (and32 e f) (and32 (not32 e) g)

/-- SHA-256 majority function. -/
def shaMaj (a b c : Nat) : Nat := xor32 (xor32 (and32 a b) (and32 a c)) (and32 b c)

/-- SHA-256 padding: append 0x80, zero bytes, then the 64-bit big-endian bit
length, reaching a multiple of 64 bytes. -/
def padMsg (bytes : List Nat) : List Nat :=
  let len := bytes.length
  let zeros := (119 - len % 64) % 64
  bytes ++ [0x80] ++ List.replicate zeros 0 ++
    [56, 48, 40, 32, 24, 16, 8, 0].map (fun k => (len * 8) / 2 ^ k % 256)

/-- Split a byte list into blocks of 64 bytes (fuel-driven, structural). -/
def toBlocks : Nat → List Nat → List (List Nat)
  | 0, _ => []
  | k + 1, bs => bs.take 64 :: toBlocks k (bs.drop 64)

/-- Group bytes into 32-bit big-endian words. -/
def bytesToWords : List Nat → List Nat
  | b0 :: b1 :: b2 :: b3 :: rest =>
      (b0 * 16777216 + b1 * 65536 + b2 * 256 + b3) :: bytesToWords rest
  | _ => []

/-- Extend the 16 message words to 64 (accumulator holds the words produced so
far, most recent first). -/
def schedExtend : Nat → List Nat → List Nat
  | 0, acc => acc
  | k + 1, acc =>
      schedExtend k
        (w32 (smallS1 (acc.getD 1 0) + acc.getD 6 0 + smallS0 (acc.getD 14 0) + acc.getD 15 0) :: acc)

/-- The SHA-256 message schedule of one block. -/
def schedule (ws16 : List Nat) : List Nat := (schedExtend 48 ws16.reverse).reverse

/-- One SHA-256 compression round on the state [a, b, c, d, e, f, g, h]. -/
def roundStep (st : List Nat) (kw : Nat × Nat) : List Nat :=
  match st with
  | [a, b, c, d, e, f, g, h] =>
      let t1 := w32 (h + bigS1 e + shaCh e f g + kw.1 + kw.2)
      let t2 := w32 (bigS0 a + shaMaj a b c)
      [w32 (t1 + t2), a, b, c, w32 (d + t1), e, f, g]
  | other => other

/-- Compress one 64-byte block into the running hash state. -/
def compressBlock (hs : List Nat) (block : List Nat) : List Nat :=
  let ws := schedule (bytesToWords block)
  let st := (sha256K.zip ws).foldl roundStep hs
  (hs.zip st).map (fun pr => w32 (pr.1 + pr.2))

/-- SHA-256 of a byte list, as eight 32-bit words. -/
def sha256 (msg : List Nat) : List Nat :=
  let padded := padMsg msg
  (toBlocks (padded.length / 64) padded).foldl compressBlock shaH0

/-- Lowercase hexadecimal digit. -/
def hexChar (n : Nat) : Char := if n < 10 then Char.ofNat (48 + n) else Char.ofNat (87 + n)

/-- Eight hex digits of a 32-bit word, most significant first. -/
def wordHex (w : Nat) : List Char := (List.range 8).map (fun i => hexChar (w / 2 ^ ((7 - i) * 4) % 16))

/-- UTF-8 encoding of one code point (models Python `str.encode()`). -/
def utf8EncodeChar (c : Char) : List Nat :=
  let n := c.toNat
  if n < 128 then [n]
  else if n < 2048 then [192 + n / 64, 128 + n % 64]
  else if n < 65536 then [224 + n / 4096, 128 + n / 64 % 64, 128 + n % 64]
  else [240 + n / 262144, 128 + n / 4096 % 64, 128 + n / 64 % 64, 128 + n % 64]

/-- UTF-8 bytes of a string. -/
def utf8Bytes (s : String) : List Nat := (s.data.map utf8EncodeChar).flatten

/-- `hashlib.sha256(bytes).hexdigest()`. -/
def sha256Hex (bytes : List Nat) : String := String.mk ((sha256 bytes).map wordHex).flatten

/-- Decidable equality for call outcomes. -/
instance {ε α : Type} [DecidableEq ε] [DecidableEq α] : DecidableEq (Except ε α) := fun a b =>
  match a, b with
  | .ok x, .ok y =>
      if h : x = y then .isTrue (by rw [h]) else .isFalse (by simp [h])
  | .error x, .error y =>
      if h : x = y then .isTrue (by rw [h]) else .isFalse (by simp [h])
  | .ok _, .error _ => .isFalse (by simp)
  | .error _, .ok _ => .isFalse (by simp)

/-! ## Ingestion service: src/services/ingestion/data.py -/

namespace Ingestion

/-- `COLLECTION_NAME = "invoice_rag"`. -/
def COLLECTION_NAME : String := "invoice_rag"

/-- `DIMENSIONS = 384`, the configured collection dimension. -/
def DIMENSIONS : Nat := 384

/-- The model identifier the ingestion embedder is constructed with:
`SentenceTransformer("all-MiniLM-L6-v2")`. -/
def sentenceTransformerModelName : String := "all-MiniLM-L6-v2"

/-- A sequence of values produced by an iterated external call, followed by an
optional exception raised after those iterations. -/
structure StepsRes (α : Type) where
  steps : List α
  err : Option String
deriving DecidableEq

/-- Outcomes of the external calls made by `process_file` for one file:
the declared extension, the embedded-text extraction of the PDF pages
(`None` models `extract_text()` returning no text), the OCR pass over the
rasterized pages, the DOCX paragraph texts, and the direct image OCR.
`Except.error` models the call raising before producing anything. -/
structure ExtractEnv where
  ext : String
  pdfRead : Except String (StepsRes (Option String))
  pdfOcr : Except String (StepsRes String)
  docxRead : Except String (StepsRes String)
  imgOcr : Except String String

/-- Accumulate PDF page texts: `if page_text: text += page_text + "\n"`. -/
def pdfPagesText (pages : List (Option String)) : String :=
  pages.foldl (fun acc pg => match pg with | some t => acc ++ t ++ "\n" | none => acc) ""

/-- Accumulate line-terminated fragments onto a base text. -/
def appendLines (base : String) (items : List String) : String :=
  items.foldl (fun acc t => acc ++ t ++ "\n") base

/-- The body of `process_file` before its `except` handler: on an exception the
error carries the text accumulated up to the raise. -/
def processBody (env : ExtractEnv) : Except (String × String) String :=
  if plower env.ext = ".pdf" then
    match env.pdfRead with
    | .error e => .error ("", e)
    | .ok pr =>
      let t1 := pdfPagesText pr.steps
      match pr.err with
      | some e => .error (t1, e)
      | none =>
        if pstrip t1 = "" then
          match env.pdfOcr with
          | .error e => .error (t1, e)
          | .ok orr =>
            let t2 := appendLines t1 orr.steps
            match orr.err with
            | some e => .error (t2, e)
            | none => .ok t2
        else .ok t1
  else if plower env.ext = ".docx" then
    match env.docxRead with
    | .error e => .error ("", e)
    | .ok dr =>
      let t := appendLines "" dr.steps
      match dr.err with
      | some e => .error (t, e)
      | none => .ok t
  else if plower env.ext = ".png" ∨ plower env.ext = ".jpg" ∨ plower env.ext = ".jpeg" then
    match env.imgOcr with
    | .error e => .error ("", e)
    | .ok t => .ok t
  else .ok ""

/-- `process_file`: the `try` body with the catch-all `except` falling through
to `return text`. -/
def process_file (env : ExtractEnv) : String :=
  match processBody env with
  | .ok t => t
  | .error pr => pr.1

/-- Scanner for `re.split(r"\n\n+", text)`: `acc` holds the current segment
reversed, `nl` counts newlines seen but not yet committed.  A run of two or
more newlines is a separator (dropped); a single newline stays in the
segment. -/
def reSplitNN (acc : List Char) (nl : Nat) : List Char → List (List Char)
  | [] =>
      if nl ≥ 2 then [acc.reverse, []]
      else [(List.replicate nl '\n' ++ acc).reverse]
  | c :: rest =>
      if c = '\n' then reSplitNN acc (nl + 1) rest
      else if nl ≥ 2 then acc.reverse :: reSplitNN [c] 0 rest
      else reSplitNN (c :: (List.replicate nl '\n' ++ acc)) 0 rest

/-- `split_text`: `[chunk.strip() for chunk in re.split(r"\n\n+", text) if chunk.strip()]`. -/
def split_text (text : String) : List String :=
  (((reSplitNN [] 0 text.data).map String.mk).filter (fun c => pstrip c != "")).map pstrip

/-- Specification-level splitter, written from the specification text: cut a
segment at each run of two or more consecutive newlines, skip the whole run,
and keep every other character inside the current segment. -/
def splitOnRuns : List Char → List (List Char)
  | [] => [[]]
  | '\n' :: '\n' :: rest => [] :: splitOnRuns (rest.dropWhile (fun c => c = '\n'))
  | c :: rest =>
    match splitOnRuns rest with
    | [] => [[c]]
    | s :: ss => (c :: s) :: ss
termination_by cs => cs.length
decreasing_by
  all_goals simp_wf
  · have h : ∀ l : List Char, (l.dropWhile (fun c => c = '\n')).length ≤ l.length := by
      intro l
      induction l with
      | nil => exact Nat.le_refl 0
      | cons a t ih =>
        rw [List.dropWhile_cons]
        by_cases ha : a = '\n'
        · rw [if_pos (by simp [ha])]
          exact Nat.le_trans ih (by simp)
        · rw [if_neg (by simp [ha])]
    have := h rest
    omega

/-- Specification-level chunker: split on maximal newline runs, trim each
segment, and drop blank segments. -/
def splitSpecText (text : String) : List String :=
  (((splitOnRuns text.data).map String.mk).filter (fun c => pstrip c != "")).map pstrip

/-- A point payload `{text, source_file, file_hash}`. -/
structure PointPayload where
  text : String
  source_file : String
  file_hash : String
deriving DecidableEq

/-- A Qdrant `PointStruct`. -/
structure PointStruct where
  id : String
  vector : List Rat
  payload : PointPayload
deriving DecidableEq

/-- Outcomes of the external calls made by one `ingest_document` run:
`ensure_collection_exists`, `compute_file_hash` (reading the file),
`qdrant_client.scroll` (the filtered existence check, as the list of matching
points), the extraction environment, the per-chunk embedding model call, the
upsert call, whether the scratch file exists and whether `os.remove`
succeeds, the UUIDs drawn, and `os.path.basename(file_path)`. -/
structure IngestEnv where
  ensureColl : Except String Unit
  fileHash : Except String String
  scroll : String → String → Except String (List Unit)
  extract : ExtractEnv
  embed : String → Except String (List Rat)
  upsert : List PointStruct → Except String Unit
  fileExists : Bool
  removeOk : Bool
  freshIds : Nat → String
  basename : String

/-- `embeder`: the model call with its internal catch-all returning `[]`. -/
def embeder (env : IngestEnv) (text_chunk : String) : List Rat :=
  match env.embed text_chunk with
  | .ok v => v
  | .error _ => []

/-- `file_already_ingested`: the scroll call with its internal catch-all
returning `False`. -/
def file_already_ingested (env : IngestEnv) (collection_name file_hash : String) : Bool :=
  match env.scroll collection_name file_hash with
  | .ok pts => decide (pts.length > 0)
  | .error _ => false

/-- `cleanup_file`: returns whether the file was actually removed (it is
removed when it exists and `os.remove` does not raise; any error is caught). -/
def cleanup_file (env : IngestEnv) : Bool := env.fileExists && env.removeOk

/-- The loop of `ingest_document` building `points_to_upsert`: each chunk is
embedded and kept only if the vector is non-empty with the configured
dimension. -/
def buildPoints (env : IngestEnv) (fhash : String) (chunks : List String) : List PointStruct :=
  chunks.enum.filterMap (fun pr =>
    let v := embeder env pr.2
    if v ≠ [] ∧ v.length = DIMENSIONS then
      some ⟨env.freshIds pr.1, v, ⟨pr.2, env.basename, fhash⟩⟩
    else none)

/-- The observable outcome of one `ingest_document` call: its return value (or
the propagated exception), the upsert batches sent to the vector store, and
the `finally` cleanup (whether it ran, and whether the file was removed). -/
structure IngestOutcome where
  result : Except String (List PointStruct)
  upsertCalls : List (List PointStruct)
  cleanupRan : Bool
  fileRemoved : Bool
deriving DecidableEq

/-- `ingest_document`: dedup gate, extraction, chunking, per-chunk embedding
with the dimension gate, conditional upsert, and unconditional `finally`
cleanup. -/
def ingest_document (env : IngestEnv) (collection_name : String) : IngestOutcome :=
  match env.ensureColl with
  | .error e => ⟨.error e, [], true, cleanup_file env⟩
  | .ok _ =>
    match env.fileHash with
    | .error e => ⟨.error e, [], true, cleanup_file env⟩
    | .ok fhash =>
      if file_already_ingested env collection_name fhash then
        ⟨.ok [], [], true, cleanup_file env⟩
      else
        let document_text := process_file env.extract
        if document_text = "" then ⟨.ok [], [], true, cleanup_file env⟩
        else
          let chunks := split_text document_text
          let pts := buildPoints env fhash chunks
          if pts.isEmpty then ⟨.ok pts, [], true, cleanup_file env⟩
          else
            match env.upsert pts with
            | .ok _ => ⟨.ok pts, [pts], true, cleanup_file env⟩
            | .error e => ⟨.error e, [pts], true, cleanup_file env⟩

end Ingestion

/-! ## Chat service: src/services/chat/main.py -/

namespace Chat

/-- `MODEL = "gemini-2.5-flash"`. -/
def MODEL : String := "gemini-2.5-flash"

/-- `EMBEDDING_MODEL = "models/embedding-001"`: the remote model every chat
query is embedded with. -/
def EMBEDDING_MODEL : String := "models/embedding-001"

/-- `COLLECTION_NAME = "invoice_rag"`. -/
def COLLECTION_NAME : String := "invoice_rag"

/-- `normalize_query`: `hashlib.sha256(query.strip().lower().encode()).hexdigest()`. -/
def normalize_query (query : String) : String := sha256Hex (utf8Bytes (plower (pstrip query)))

/-- `get_cached_response`: Redis get on the normalized key (the cache is a
key-to-value map; `none` models a miss or an expired entry). -/
def get_cached_response (cache : String → Option String) (query : String) : Option String :=
  cache (normalize_query query)

/-- `set_cached_response`: Redis setex on the normalized key. -/
def set_cached_response (cache : String → Option String) (query response : String) :
    String → Option String :=
  fun k => if k = normalize_query query then some response else cache k

/-- One Qdrant search hit: `payload.get("source_file")`, `payload.get("text")`
and `getattr(r, "score", 0.0)` may each be absent. -/
structure SearchHit where
  source_file : Option String
  text : Option String
  score : Option Rat
deriving DecidableEq

/-- A generation stream: the `chunk.text` fragments produced, then either a
clean completion (`err = none`) or an exception raised after them. -/
structure GenOut where
  chunks : List String
  err : Option String
deriving DecidableEq

/-- Outcomes of the chat service's external calls: the Redis cache contents,
the remote embedding call (model identifier and text to the list of returned
embedding vectors), the Qdrant search (query vector and limit to hits), and
the streaming generation call on a prompt. -/
structure ChatEnv where
  cache : String → Option String
  embedBackend : String → String → Except String (List (List Rat))
  searchBackend : List Rat → Nat → Except String (List SearchHit)
  genBackend : String → GenOut

/-- `get_embedding`: embed with `EMBEDDING_MODEL`, take the first returned
embedding, `[]` when none; an exception becomes HTTPException 500. -/
def get_embedding (env : ChatEnv) (text : String) : Except String (List Rat) :=
  match env.embedBackend EMBEDDING_MODEL text with
  | .error _ => .error "Error generating embedding"
  | .ok [] => .ok []
  | .ok (e0 :: _) => .ok e0

/-- Two-digit zero padding. -/
def twoDigits (n : Nat) : String := if n < 10 then "0" ++ toString n else toString n

/-- Floor of a rational. -/
def ratFloor (q : Rat) : Int := q.num.fdiv (q.den : Int)

/-- Decimal rendering of a score with two fractional digits, modelling the
Python float format `:.2f` (rounding to the nearest hundredth). -/
def fmt2 (q : Rat) : String :=
  let n : Int := ratFloor (q * 100 + 1 / 2)
  if n < 0 then "-" ++ toString ((-n).toNat / 100) ++ "." ++ twoDigits ((-n).toNat % 100)
  else toString (n.toNat / 100) ++ "." ++ twoDigits (n.toNat % 100)

/-- The context line formatted for one hit. -/
def hitChunk (r : SearchHit) : String :=
  "**Source File:** " ++ r.source_file.getD "N/A" ++ " (Relevance: " ++ fmt2 (r.score.getD 0) ++
    ")\n**Text:** " ++ r.text.getD ""

/-- `search_qdrant_context`: embed the query, search, fold the hits into a
markdown context with the mean score; every exception is re-raised as
HTTPException 500. -/
def search_qdrant_context (env : ChatEnv) (query : String) (top_k : Nat) :
    Except String (String × Rat) :=
  match get_embedding env query with
  | .error _ => .error "Error fetching context from Qdrant"
  | .ok query_vector =>
    if query_vector = [] then .ok ("", 0)
    else
      match env.searchBackend query_vector top_k with
      | .error _ => .error "Error fetching context from Qdrant"
      | .ok results =>
        if results = [] then .ok ("", 0)
        else
          let total_score := results.foldl (fun acc r => acc + r.score.getD 0) 0
          .ok (String.intercalate "\n\n" (results.map hitChunk), total_score / results.length)

/-- The generation prompt built by `msg_stream`. -/
def system_prompt (confidence : Rat) (context_md prompt : String) : String :=
  "You are an expert AI invoice assistant.\n\nConfidence Score: " ++ fmt2 confidence ++
    "\n\nContext:\n" ++ context_md ++ "\n\nUser Query:\n" ++ prompt ++ "\n"

/-- `msg_stream`: cache fast path, retrieval, streaming generation with
accumulation, conditional cache write-back, and the catch-all converting any
exception into one in-band `"Error: ..."` fragment.  The value is the list of
yielded fragments together with the cache state after the call. -/
def msg_stream (env : ChatEnv) (prompt : String) : List String × (String → Option String) :=
  match get_cached_response env.cache prompt with
  | some cached => ([cached], env.cache)
  | none =>
    match search_qdrant_context env prompt 3 with
    | .error e => (["Error: " ++ e ++ "\n\n"], env.cache)
    | .ok (context_md, confidence) =>
      let g := env.genBackend (system_prompt confidence context_md prompt)
      let ys := g.chunks.filter (fun c => c != "")
      let full_response := String.join ys
      match g.err with
      | some e => (ys ++ ["Error: " ++ e ++ "\n\n"], env.cache)
      | none =>
        if pstrip full_response != "" then
          (ys, set_cached_response env.cache prompt full_response)
        else (ys, env.cache)

end Chat

/-! ## Concrete environments used to evaluate the pipelines -/

namespace Ingestion

/-- A well-formed 384-dimensional embedding vector. -/
def goodVec : List Rat := List.replicate 384 1

/-- An extraction environment for a DOCX file whose paragraphs read cleanly. -/
def docxEnv (paras : List String) : ExtractEnv :=
  ⟨".docx", .error "unused", .error "unused", .ok ⟨paras, none⟩, .error "unused"⟩

/-- Replace the scroll outcome of an environment by an empty (fresh-content)
result, leaving every other outcome unchanged. -/
def withFreshScroll (env : IngestEnv) : IngestEnv :=
  ⟨env.ensureColl, env.fileHash, fun _ _ => .ok [], env.extract, env.embed, env.upsert,
    env.fileExists, env.removeOk, env.freshIds, env.basename⟩

/-- An ingestion run whose content hash is already present in the store. -/
def c3wenv : IngestEnv :=
  ⟨.ok (), .ok "dup", fun _ _ => .ok [()], docxEnv ["x"], fun _ => .ok goodVec,
    fun _ => .ok (), true, true, fun i => "id" ++ toString i, "inv.docx"⟩

/-- An ingestion run over three chunks: one embeds to the configured
dimension, one fails to embed, one embeds to a wrong dimension. -/
def c4env : IngestEnv :=
  ⟨.ok (), .ok "hh", fun _ _ => .ok [], docxEnv ["c1", "", "c2", "", "c3"],
    fun s => if s = "c1" then .ok goodVec else if s = "c2" then .error "embed fail" else .ok [1, 2],
    fun _ => .ok (), true, true, fun i => "id" ++ toString i, "inv.docx"⟩

/-- The single point surviving the dimension gate in `c4env`. -/
def c4point : PointStruct := ⟨"id0", goodVec, ⟨"c1", "inv.docx", "hh"⟩⟩

/-- An ingestion run in which the collection check raises. -/
def c5wenv : IngestEnv :=
  ⟨.error "no connection", .ok "h", fun _ _ => .ok [], docxEnv ["x"], fun _ => .ok goodVec,
    fun _ => .ok (), true, true, fun i => "id" ++ toString i, "inv.docx"⟩

/-- A DOCX extraction that raises after reading two paragraphs. -/
def c7denv : ExtractEnv :=
  ⟨".docx", .error "unused", .error "unused", .ok ⟨["a", "b"], some "disk error"⟩, .error "unused"⟩

/-- An image extraction whose OCR raises before producing anything. -/
def c7ienv : ExtractEnv :=
  ⟨".png", .error "unused", .error "unused", .error "unused", .error "cannot open image"⟩

/-- A PDF with a whitespace-only embedded text layer, falling back to OCR. -/
def c7penv : ExtractEnv :=
  ⟨".pdf", .ok ⟨[some " ", none], none⟩, .ok ⟨["OCRA", "OCRB"], none⟩, .error "unused",
    .error "unused"⟩

/-- An ingestion run in which the duplicate-check scroll raises. -/
def c10env : IngestEnv :=
  ⟨.ok (), .ok "hh", fun _ _ => .error "store down", docxEnv ["c1"], fun _ => .ok goodVec,
    fun _ => .ok (), true, true, fun i => "id" ++ toString i, "inv.docx"⟩

end Ingestion

namespace Chat

/-- A chat query with a cold cache against an empty collection: the embedding
succeeds, the search returns zero hits, generation streams one fragment. -/
def c1env : ChatEnv :=
  ⟨fun _ => none, fun _ _ => .ok [[1]], fun _ _ => .ok [], fun _ => ⟨["Generated answer"], none⟩⟩

/-- A second zero-hit chat query used to instantiate the general statement. -/
def c1wenv : ChatEnv :=
  ⟨fun _ => none, fun _ _ => .ok [[2]], fun _ _ => .ok [], fun _ => ⟨["Gen"], none⟩⟩

/-- A chat query whose remote embedding call raises. -/
def c6wenv : ChatEnv :=
  ⟨fun _ => none, fun _ _ => .error "network down", fun _ _ => .ok [], fun _ => ⟨[], none⟩⟩

end Chat

/-! ## Helper lemmas -/

/-- The head of a `dropWhile` result never satisfies the predicate. -/
theorem dropWhile_eq_cons_head {α : Type} (p : α → Bool) :
    ∀ (l : List α) (a : α) (t : List α), l.dropWhile p = a :: t → p a = false := by
  intro l
  induction l with
  | nil => intro a t h; simp [List.dropWhile] at h
  | cons b l ih =>
    intro a t h
    rw [List.dropWhile_cons] at h
    by_cases hb : p b = true
    · rw [if_pos hb] at h
      exact ih a t h
    · rw [if_neg hb] at h
      injection h with h1 _
      subst h1
      simp only [Bool.not_eq_true] at hb
      exact hb

/-- A stripped character list has no leading whitespace left. -/
theorem dropWhile_pstripL (l : List Char) : (pstripL l).dropWhile wsChar = pstripL l := by
  have hpre : pstripL l <+: l.dropWhile wsChar :=
    List.rdropWhile_prefix wsChar (l.dropWhile wsChar)
  obtain ⟨t, ht⟩ := hpre
  cases hc : pstripL l with
  | nil => simp
  | cons a r =>
    have hd : l.dropWhile wsChar = a :: (r ++ t) := by
      rw [← ht, hc]; rfl
    have ha : wsChar a = false := dropWhile_eq_cons_head wsChar l a (r ++ t) hd
    rw [List.dropWhile_cons, if_neg (by simp [ha])]

/-- Python `strip` is idempotent on character lists. -/
theorem pstripL_idem (l : List Char) : pstripL (pstripL l) = pstripL l := by
  show ((pstripL l).dropWhile wsChar).rdropWhile wsChar = pstripL l
  rw [dropWhile_pstripL]
  exact List.rdropWhile_idempotent wsChar (l.dropWhile wsChar)

/-- Python `strip` is idempotent. -/
theorem pstrip_idem (s : String) : pstrip (pstrip s) = pstrip s := by
  show String.mk (pstripL (pstripL s.data)) = String.mk (pstripL s.data)
  rw [pstripL_idem]

/-- Every chunk produced by `split_text` is non-empty and already stripped. -/
theorem mem_split_text {t c : String} (h : c ∈ Ingestion.split_text t) :
    c ≠ "" ∧ pstrip c = c := by
  unfold Ingestion.split_text at h
  rw [List.mem_map] at h
  obtain ⟨s, hs, rfl⟩ := h
  rw [List.mem_filter] at hs
  have hne : pstrip s ≠ "" := by simpa using hs.2
  exact ⟨hne, pstrip_idem s⟩

/-- Every point produced by the embedding loop passes the dimension gate. -/
theorem mem_buildPoints {env : Ingestion.IngestEnv} {fhash : String} {chunks : List String}
    {p : Ingestion.PointStruct} (h : p ∈ Ingestion.buildPoints env fhash chunks) :
    p.vector ≠ [] ∧ p.vector.length = Ingestion.DIMENSIONS := by
  unfold Ingestion.buildPoints at h
  rw [List.mem_filterMap] at h
  obtain ⟨pr, _, hpr⟩ := h
  dsimp only at hpr
  split at hpr
  · injection hpr with h1
    subst h1
    assumption
  · exact absurd hpr (by simp)

/-- Every batch `ingest_document` sends to upsert comes from the embedding
loop. -/
theorem upsertCalls_from_buildPoints (env : Ingestion.IngestEnv) (coll : String) :
    ∀ batch ∈ (Ingestion.ingest_document env coll).upsertCalls,
      ∃ fhash chunks, batch = Ingestion.buildPoints env fhash chunks := by
  intro batch hb
  unfold Ingestion.ingest_document at hb
  split at hb
  · simp at hb
  · split at hb
    · simp at hb
    · split at hb
      · simp at hb
      · dsimp only at hb
        split at hb
        · simp at hb
        · split at hb
          · simp at hb
          · split at hb <;>
              (rw [List.mem_singleton] at hb; exact ⟨_, _, hb⟩)

/-- `dropWhile` never lengthens a list. -/
theorem dropWhile_length_le {α : Type} (p : α → Bool) (l : List α) :
    (l.dropWhile p).length ≤ l.length := by
  induction l with
  | nil => exact Nat.le_refl 0
  | cons a t ih =>
    rw [List.dropWhile_cons]
    by_cases ha : p a = true
    · rw [if_pos ha]
      exact Nat.le_trans ih (by simp)
    · rw [if_neg ha]

/-- The specification splitter always yields at least one segment. -/
theorem splitOnRuns_ne_nil (cs : List Char) : Ingestion.splitOnRuns cs ≠ [] := by
  rw [Ingestion.splitOnRuns.eq_def]
  split
  · simp
  · simp
  · split <;> simp

/-- Unfolding of the specification splitter at a separator. -/
theorem splitOnRuns_sep (rest : List Char) :
    Ingestion.splitOnRuns ('\n' :: '\n' :: rest) =
      [] :: Ingestion.splitOnRuns (rest.dropWhile (fun c => c = '\n')) := by
  rw [Ingestion.splitOnRuns.eq_def]
  rfl

/-- Unfolding of the specification splitter at a non-newline head. -/
theorem splitOnRuns_cons (c : Char) (rest : List Char) (h : ¬c = '\n') :
    Ingestion.splitOnRuns (c :: rest) =
      match Ingestion.splitOnRuns rest with
      | [] => [[c]]
      | s :: ss => (c :: s) :: ss := by
  rw [Ingestion.splitOnRuns.eq_def]
  split <;> simp_all

/-- Unfolding of the specification splitter at a single newline. -/
theorem splitOnRuns_nl (b : Char) (rest : List Char) (h : ¬b = '\n') :
    Ingestion.splitOnRuns ('\n' :: b :: rest) =
      match Ingestion.splitOnRuns (b :: rest) with
      | [] => [['\n']]
      | s :: ss => ('\n' :: s) :: ss := by
  rw [Ingestion.splitOnRuns.eq_def]
  split
  · rename_i heq
    simp at heq
  · rename_i heq
    injection heq with h1 h2
    injection h2 with h2a h2b
    exact absurd h2a h
  · rename_i heq
    injection heq with h1 h2
    subst h1
    subst h2
    rfl

/-- Unfolding of the specification splitter at a lone trailing newline. -/
theorem splitOnRuns_single_nl : Ingestion.splitOnRuns ['\n'] = [['\n']] := by
  rw [Ingestion.splitOnRuns.eq_def]
  show (match Ingestion.splitOnRuns ([] : List Char) with
    | [] => [['\n']]
    | s :: ss => ('\n' :: s) :: ss) = [['\n']]
  rw [Ingestion.splitOnRuns.eq_def]

/-- Once inside a separator run, the scanner emits the current segment and
resumes after the run. -/
theorem reSplitNN_sep (rest : List Char) (acc : List Char) (nl : Nat) (h : nl ≥ 2) :
    Ingestion.reSplitNN acc nl rest =
      acc.reverse :: Ingestion.reSplitNN [] 0 (rest.dropWhile (fun c => c = '\n')) := by
  induction rest generalizing nl with
  | nil =>
    show (if nl ≥ 2 then _ else _) = _
    rw [if_pos h]
    rfl
  | cons c r ih =>
    by_cases hc : c = '\n'
    · subst hc
      show (if ('\n' : Char) = '\n' then Ingestion.reSplitNN acc (nl + 1) r else _) = _
      rw [if_pos rfl, ih (nl + 1) (Nat.le_succ_of_le h), List.dropWhile_cons,
        if_pos (by simp)]
    · show (if c = '\n' then _ else if nl ≥ 2 then _ else _) = _
      rw [if_neg hc, if_pos h, List.dropWhile_cons, if_neg (by simp [hc])]
      show _ = acc.reverse :: (if c = '\n' then _ else if (0 : Nat) ≥ 2 then _
        else Ingestion.reSplitNN (c :: (List.replicate 0 '\n' ++ [])) 0 r)
      rw [if_neg hc, if_neg (by omega)]
      rfl

/-- Relation between the scanner state and the specification splitter of the
remaining input, for an idle (no pending newline) scanner state. -/
theorem reSplitNN_eq_aux :
    ∀ (n : Nat) (cs : List Char), cs.length ≤ n → ∀ acc : List Char,
      Ingestion.reSplitNN acc 0 cs =
        (acc.reverse ++ (Ingestion.splitOnRuns cs).headD []) ::
          (Ingestion.splitOnRuns cs).tail := by
  intro n
  induction n with
  | zero =>
    intro cs hcs acc
    have hnil : cs = [] := List.length_eq_zero.mp (Nat.le_zero.mp hcs)
    subst hnil
    simp [Ingestion.reSplitNN, Ingestion.splitOnRuns]
  | succ n ih =>
    intro cs hcs acc
    rcases cs with _ | ⟨a, cs'⟩
    · simp [Ingestion.reSplitNN, Ingestion.splitOnRuns]
    by_cases ha : a = '\n'
    · subst ha
      rcases cs' with _ | ⟨b, rest⟩
      · have h1 : Ingestion.reSplitNN acc 0 ['\n'] = [acc.reverse ++ ['\n']] := by
          show Ingestion.reSplitNN acc 1 [] = _
          show [(List.replicate 1 '\n' ++ acc).reverse] = _
          simp
        rw [h1, splitOnRuns_single_nl]
        simp
      · by_cases hb : b = '\n'
        · subst hb
          have h1 : Ingestion.reSplitNN acc 0 ('\n' :: '\n' :: rest) =
              Ingestion.reSplitNN acc 2 rest := rfl
          rw [h1, reSplitNN_sep rest acc 2 (by omega), splitOnRuns_sep]
          obtain ⟨s, ss, hX⟩ : ∃ s ss,
              Ingestion.splitOnRuns (rest.dropWhile (fun c => c = '\n')) = s :: ss := by
            cases hx : Ingestion.splitOnRuns (rest.dropWhile (fun c => c = '\n')) with
            | nil => exact absurd hx (splitOnRuns_ne_nil _)
            | cons s ss => exact ⟨s, ss, rfl⟩
          have hlen : (rest.dropWhile (fun c => c = '\n')).length ≤ n := by
            have h2 := dropWhile_length_le (fun c => decide (c = '\n')) rest
            simp at hcs
            omega
          rw [ih _ hlen [], hX]
          simp
        · have h1 : Ingestion.reSplitNN acc 0 ('\n' :: b :: rest) =
              Ingestion.reSplitNN (b :: '\n' :: acc) 0 rest := by
            show Ingestion.reSplitNN acc 1 (b :: rest) = _
            show (if b = '\n' then _ else if (1 : Nat) ≥ 2 then _
              else Ingestion.reSplitNN (b :: (List.replicate 1 '\n' ++ acc)) 0 rest) = _
            rw [if_neg hb, if_neg (by omega)]
            rfl
          have hlen : rest.length ≤ n := by simp at hcs; omega
          rw [h1, ih rest hlen (b :: '\n' :: acc), splitOnRuns_nl b rest hb,
            splitOnRuns_cons b rest hb]
          obtain ⟨s, ss, hX⟩ : ∃ s ss, Ingestion.splitOnRuns rest = s :: ss := by
            cases hx : Ingestion.splitOnRuns rest with
            | nil => exact absurd hx (splitOnRuns_ne_nil _)
            | cons s ss => exact ⟨s, ss, rfl⟩
          rw [hX]
          simp
    · have h1 : Ingestion.reSplitNN acc 0 (a :: cs') =
          Ingestion.reSplitNN (a :: acc) 0 cs' := by
        show (if a = '\n' then _ else if (0 : Nat) ≥ 2 then _
          else Ingestion.reSplitNN (a :: (List.replicate 0 '\n' ++ acc)) 0 cs') = _
        rw [if_neg ha, if_neg (by omega)]
        rfl
      have hlen : cs'.length ≤ n := by simp at hcs; omega
      rw [h1, ih cs' hlen (a :: acc), splitOnRuns_cons a cs' ha]
      obtain ⟨s, ss, hX⟩ : ∃ s ss, Ingestion.splitOnRuns cs' = s :: ss := by
        cases hx : Ingestion.splitOnRuns cs' with
        | nil => exact absurd hx (splitOnRuns_ne_nil _)
        | cons s ss => exact ⟨s, ss, rfl⟩
      rw [hX]
      simp

/-- The structural scanner computes exactly the specification splitter. -/
theorem reSplitNN_eq_splitOnRuns (cs : List Char) :
    Ingestion.reSplitNN [] 0 cs = Ingestion.splitOnRuns cs := by
  rw [reSplitNN_eq_aux cs.length cs (Nat.le_refl _) []]
  obtain ⟨s, ss, hX⟩ : ∃ s ss, Ingestion.splitOnRuns cs = s :: ss := by
    cases hx : Ingestion.splitOnRuns cs with
    | nil => exact absurd hx (splitOnRuns_ne_nil _)
    | cons s ss => exact ⟨s, ss, rfl⟩
  rw [hX]
  simp

/-! ## Claim theorems -/

/-- C2: the claim says the query-time embedding uses the same adapter and
dimension as ingestion; in the code the chat service embeds queries with the
remote model `models/embedding-001` while ingestion embeds chunks with the
local SentenceTransformer `all-MiniLM-L6-v2`, whose 384-dimensional output is
what the collection dimension is set to.  The two model identifiers differ. -/
theorem c2_embedding_adapters_differ :
    Chat.EMBEDDING_MODEL ≠ Ingestion.sentenceTransformerModelName ∧
    Ingestion.DIMENSIONS = 384 := by
  exact ⟨by decide, rfl⟩

/-- C3: when the content hash is already indexed, `ingest_document` returns an
empty point list, performs no upsert, and still runs cleanup; the outcome is a
constant record, independent of the extraction, embedding and upsert
outcomes, so those calls are never consulted. -/
theorem c3_duplicate_short_circuit (env : Ingestion.IngestEnv) (coll fhash : String)
    (h1 : env.ensureColl = .ok ()) (h2 : env.fileHash = .ok fhash)
    (h3 : Ingestion.file_already_ingested env coll fhash = true) :
    Ingestion.ingest_document env coll =
      ⟨.ok [], [], true, env.fileExists && env.removeOk⟩ := by
  unfold Ingestion.ingest_document
  rw [h1]
  dsimp only
  rw [h2]
  dsimp only
  rw [if_pos h3]
  rfl

/-- Witness for C3 at a concrete environment whose scroll finds the hash. -/
theorem c3_witness :
    Ingestion.file_already_ingested Ingestion.c3wenv Ingestion.COLLECTION_NAME "dup" = true ∧
    Ingestion.ingest_document Ingestion.c3wenv Ingestion.COLLECTION_NAME =
      ⟨.ok [], [], true, true⟩ :=
  ⟨rfl, c3_duplicate_short_circuit Ingestion.c3wenv Ingestion.COLLECTION_NAME "dup" rfl rfl rfl⟩

/-- C4: every vector in every batch passed to upsert is non-empty of the
configured dimension 384; concretely, of three chunks whose embeddings are a
384-vector, an embedding failure and a 2-vector, only the first survives to
the upsert batch and the document is still ingested. -/
theorem c4_dimension_gate :
    (∀ (env : Ingestion.IngestEnv) (coll : String) (batch : List Ingestion.PointStruct)
        (p : Ingestion.PointStruct),
        batch ∈ (Ingestion.ingest_document env coll).upsertCalls → p ∈ batch →
        p.vector ≠ [] ∧ p.vector.length = Ingestion.DIMENSIONS) ∧
    Ingestion.ingest_document Ingestion.c4env Ingestion.COLLECTION_NAME =
      ⟨.ok [Ingestion.c4point], [[Ingestion.c4point]], true, true⟩ := by
  constructor
  · intro env coll batch p hb hp
    obtain ⟨fh, ch, rfl⟩ := upsertCalls_from_buildPoints env coll batch hb
    exact mem_buildPoints hp
  · decide

/-- Witness for C4 at the concrete three-chunk environment. -/
theorem c4_witness :
    [Ingestion.c4point] ∈
      (Ingestion.ingest_document Ingestion.c4env Ingestion.COLLECTION_NAME).upsertCalls ∧
    Ingestion.c4point.vector ≠ [] ∧
    Ingestion.c4point.vector.length = Ingestion.DIMENSIONS :=
  ⟨by decide,
   c4_dimension_gate.1 Ingestion.c4env Ingestion.COLLECTION_NAME [Ingestion.c4point]
     Ingestion.c4point (by decide) (by decide)⟩

/-- C5: the `finally` cleanup runs on every outcome of `ingest_document` —
success, duplicate skip, empty extraction, and every propagated exception —
and removes the scratch file whenever it exists and the removal succeeds. -/
theorem c5_cleanup_unconditional (env : Ingestion.IngestEnv) (coll : String) :
    (Ingestion.ingest_document env coll).cleanupRan = true ∧
    (env.fileExists = true → env.removeOk = true →
      (Ingestion.ingest_document env coll).fileRemoved = true) := by
  constructor
  · unfold Ingestion.ingest_document
    dsimp only
    repeat' split
    all_goals rfl
  · intro hfe hro
    unfold Ingestion.ingest_document
    dsimp only
    repeat' split
    all_goals simp [Ingestion.cleanup_file, hfe, hro]

/-- Witness for C5 at an environment whose collection check raises. -/
theorem c5_witness :
    (Ingestion.ingest_document Ingestion.c5wenv Ingestion.COLLECTION_NAME).cleanupRan = true ∧
    (Ingestion.ingest_document Ingestion.c5wenv Ingestion.COLLECTION_NAME).fileRemoved = true :=
  ⟨(c5_cleanup_unconditional Ingestion.c5wenv Ingestion.COLLECTION_NAME).1,
   (c5_cleanup_unconditional Ingestion.c5wenv Ingestion.COLLECTION_NAME).2 rfl rfl⟩

/-- C7: `process_file` is total: it returns the body's text on success and the
text accumulated before the raise on any extraction or OCR exception;
concretely, a DOCX raising after two paragraphs yields those two lines, an
image whose OCR raises yields the empty string, and a PDF with a blank text
layer falls back to OCR. -/
theorem c7_process_file_total :
    (∀ (env : Ingestion.ExtractEnv) (t : String),
        Ingestion.processBody env = .ok t → Ingestion.process_file env = t) ∧
    (∀ (env : Ingestion.ExtractEnv) (t e : String),
        Ingestion.processBody env = .error (t, e) → Ingestion.process_file env = t) ∧
    Ingestion.process_file Ingestion.c7denv = "a\nb\n" ∧
    Ingestion.process_file Ingestion.c7ienv = "" ∧
    Ingestion.process_file Ingestion.c7penv = " \nOCRA\nOCRB\n" := by
  refine ⟨?_, ?_, by decide, by decide, by decide⟩
  · intro env t h
    unfold Ingestion.process_file
    rw [h]
  · intro env t e h
    unfold Ingestion.process_file
    rw [h]

/-- Witness for C7 at the concrete partially-read DOCX environment. -/
theorem c7_witness :
    Ingestion.processBody Ingestion.c7denv = .error ("a\nb\n", "disk error") ∧
    Ingestion.process_file Ingestion.c7denv = "a\nb\n" :=
  ⟨by decide, c7_process_file_total.2.1 Ingestion.c7denv "a\nb\n" "disk error" (by decide)⟩

/-- C8: for every input string, `split_text` computes the specification
chunker (split on each maximal run of two or more consecutive newlines, trim
each segment, discard blank segments, in source order); the claimed input
chunks to exactly ["A", "B", "C"], a whitespace-laden input is trimmed and
filtered, and every produced chunk is non-empty and already stripped. -/
theorem c8_chunker :
    (∀ t : String, Ingestion.split_text t = Ingestion.splitSpecText t) ∧
    Ingestion.split_text "A\n\nB\n\n\nC" = ["A", "B", "C"] ∧
    Ingestion.split_text " A \n\n \n\n\nB " = ["A", "B"] ∧
    (∀ t c : String, c ∈ Ingestion.split_text t → c ≠ "" ∧ pstrip c = c) := by
  refine ⟨?_, by decide, by decide, ?_⟩
  · intro t
    unfold Ingestion.split_text Ingestion.splitSpecText
    rw [reSplitNN_eq_splitOnRuns]
  · intro t c h
    exact mem_split_text h

/-- Witness for C8 on the claimed boundary input. -/
theorem c8_witness :
    "A" ∈ Ingestion.split_text "A\n\nB\n\n\nC" ∧ "A" ≠ "" ∧ pstrip "A" = "A" :=
  ⟨by decide, c8_chunker.2.2.2 "A\n\nB\n\n\nC" "A" (by decide)⟩

/-- C9: queries that agree after stripping and lowercasing get the same cache
key and hence the same cache entry; in particular "Total?" and "  TOTAL?  "
share one key. -/
theorem c9_normalize_equiv :
    (∀ q1 q2 : String, plower (pstrip q1) = plower (pstrip q2) →
        Chat.normalize_query q1 = Chat.normalize_query q2 ∧
        ∀ cache : String → Option String,
          Chat.get_cached_response cache q1 = Chat.get_cached_response cache q2) ∧
    Chat.normalize_query "Total?" = Chat.normalize_query "  TOTAL?  " := by
  have key : ∀ q1 q2 : String, plower (pstrip q1) = plower (pstrip q2) →
      Chat.normalize_query q1 = Chat.normalize_query q2 := by
    intro q1 q2 h
    unfold Chat.normalize_query
    rw [h]
  refine ⟨fun q1 q2 h => ⟨key q1 q2 h, fun cache => ?_⟩, key "Total?" "  TOTAL?  " (by decide)⟩
  unfold Chat.get_cached_response
  rw [key q1 q2 h]

/-- Witness for C9 at the claimed pair of queries. -/
theorem c9_witness :
    plower (pstrip "Total?") = plower (pstrip "  TOTAL?  ") ∧
    Chat.normalize_query "Total?" = Chat.normalize_query "  TOTAL?  " :=
  ⟨by decide, (c9_normalize_equiv.1 "Total?" "  TOTAL?  " (by decide)).1⟩

/-- C10: the duplicate check fails open: a raising scroll makes
`file_already_ingested` return false, and ingestion then proceeds exactly as
for fresh content — concretely, with the store erroring, the run still embeds
and upserts a batch, admitting potential duplicates. -/
theorem c10_dedup_fails_open :
    (∀ (env : Ingestion.IngestEnv) (coll fhash e : String),
        env.scroll coll fhash = .error e →
        Ingestion.file_already_ingested env coll fhash = false) ∧
    Ingestion.ingest_document Ingestion.c10env Ingestion.COLLECTION_NAME =
      Ingestion.ingest_document (Ingestion.withFreshScroll Ingestion.c10env)
        Ingestion.COLLECTION_NAME ∧
    (Ingestion.ingest_document Ingestion.c10env Ingestion.COLLECTION_NAME).upsertCalls ≠ [] := by
  refine ⟨?_, by decide, by decide⟩
  intro env coll fhash e h
  unfold Ingestion.file_already_ingested
  rw [h]

/-- Witness for C10 at the concrete raising-store environment. -/
theorem c10_witness :
    Ingestion.c10env.scroll Ingestion.COLLECTION_NAME "hh" = .error "store down" ∧
    Ingestion.file_already_ingested Ingestion.c10env Ingestion.COLLECTION_NAME "hh" = false :=
  ⟨by decide, c10_dedup_fails_open.1 Ingestion.c10env Ingestion.COLLECTION_NAME "hh" "store down"
    (by decide)⟩

/-- C1 counterexample: with a cold cache and a search returning zero hits,
`msg_stream` does not emit a fixed fallback and stop — it streams the
generation backend's output and writes it to the query cache. -/
theorem c1_counterexample :
    (Chat.msg_stream Chat.c1env "q").1 = ["Generated answer"] ∧
    (Chat.msg_stream Chat.c1env "q").2 (Chat.normalize_query "q") = some "Generated answer" := by
  constructor
  · rfl
  · show Chat.set_cached_response Chat.c1env.cache "q" "Generated answer"
      (Chat.normalize_query "q") = some "Generated answer"
    unfold Chat.set_cached_response
    simp

/-- C1 (amended): when the cache misses, the query embeds to a non-empty
vector and the search returns zero hits, `msg_stream` proceeds with the empty
context and confidence 0: it invokes the generation backend on the prompt
built from the empty context, streams its fragments, and caches a clean
non-blank completion as usual. -/
theorem c1_zero_hits_generation (env : Chat.ChatEnv) (prompt : String) (v : List Rat)
    (hc : env.cache (Chat.normalize_query prompt) = none)
    (he : Chat.get_embedding env prompt = .ok v) (hv : v ≠ [])
    (hs : env.searchBackend v 3 = .ok []) :
    Chat.msg_stream env prompt =
      (match (env.genBackend (Chat.system_prompt 0 "" prompt)).err with
       | some e =>
         ((env.genBackend (Chat.system_prompt 0 "" prompt)).chunks.filter (fun c => c != "") ++
           ["Error: " ++ e ++ "\n\n"], env.cache)
       | none =>
         if pstrip (String.join ((env.genBackend
             (Chat.system_prompt 0 "" prompt)).chunks.filter (fun c => c != ""))) != "" then
           ((env.genBackend (Chat.system_prompt 0 "" prompt)).chunks.filter (fun c => c != ""),
             Chat.set_cached_response env.cache prompt
               (String.join ((env.genBackend
                 (Chat.system_prompt 0 "" prompt)).chunks.filter (fun c => c != ""))))
         else
           ((env.genBackend (Chat.system_prompt 0 "" prompt)).chunks.filter (fun c => c != ""),
             env.cache)) := by
  have hsq : Chat.search_qdrant_context env prompt 3 = .ok ("", 0) := by
    unfold Chat.search_qdrant_context
    rw [he]
    dsimp only
    rw [if_neg hv, hs]
    rfl
  unfold Chat.msg_stream Chat.get_cached_response
  rw [hc]
  dsimp only
  rw [hsq]

/-- Witness for the amended C1 at a concrete zero-hit environment. -/
theorem c1_witness :
    Chat.c1wenv.cache (Chat.normalize_query "q") = none ∧
    Chat.msg_stream Chat.c1wenv "q" =
      (["Gen"], Chat.set_cached_response Chat.c1wenv.cache "q" "Gen") :=
  ⟨rfl, c1_zero_hits_generation Chat.c1wenv "q" [2] rfl rfl (by decide) rfl⟩

/-- C6: on a cache miss, a retrieval error yields exactly one in-band error
fragment and leaves the cache unchanged; a generation error yields the
streamed fragments followed by one error fragment and leaves the cache
unchanged; a clean all-blank completion leaves the cache unchanged; and the
cache changes only on a clean completion with non-blank accumulated text, in
which case it gains exactly that full response under the normalized key. -/
theorem c6_cache_write_discipline (env : Chat.ChatEnv) (prompt : String)
    (hc : env.cache (Chat.normalize_query prompt) = none) :
    (∀ e, Chat.search_qdrant_context env prompt 3 = .error e →
        Chat.msg_stream env prompt = (["Error: " ++ e ++ "\n\n"], env.cache)) ∧
    (∀ ctx conf e, Chat.search_qdrant_context env prompt 3 = .ok (ctx, conf) →
        (env.genBackend (Chat.system_prompt conf ctx prompt)).err = some e →
        Chat.msg_stream env prompt =
          ((env.genBackend (Chat.system_prompt conf ctx prompt)).chunks.filter
              (fun c => c != "") ++ ["Error: " ++ e ++ "\n\n"], env.cache)) ∧
    (∀ ctx conf, Chat.search_qdrant_context env prompt 3 = .ok (ctx, conf) →
        (env.genBackend (Chat.system_prompt conf ctx prompt)).err = none →
        pstrip (String.join ((env.genBackend (Chat.system_prompt conf ctx prompt)).chunks.filter
          (fun c => c != ""))) = "" →
        (Chat.msg_stream env prompt).2 = env.cache) ∧
    ((Chat.msg_stream env prompt).2 ≠ env.cache →
        ∃ ctx conf, Chat.search_qdrant_context env prompt 3 = .ok (ctx, conf) ∧
          (env.genBackend (Chat.system_prompt conf ctx prompt)).err = none ∧
          pstrip (String.join ((env.genBackend (Chat.system_prompt conf ctx prompt)).chunks.filter
            (fun c => c != ""))) ≠ "" ∧
          (Chat.msg_stream env prompt).2 =
            Chat.set_cached_response env.cache prompt
              (String.join ((env.genBackend (Chat.system_prompt conf ctx prompt)).chunks.filter
                (fun c => c != "")))) := by
  have hbr : Chat.msg_stream env prompt =
      (match Chat.search_qdrant_context env prompt 3 with
       | .error e => (["Error: " ++ e ++ "\n\n"], env.cache)
       | .ok (context_md, confidence) =>
         match (env.genBackend (Chat.system_prompt confidence context_md prompt)).err with
         | some e =>
           ((env.genBackend (Chat.system_prompt confidence context_md prompt)).chunks.filter
              (fun c => c != "") ++ ["Error: " ++ e ++ "\n\n"], env.cache)
         | none =>
           if pstrip (String.join ((env.genBackend
               (Chat.system_prompt confidence context_md prompt)).chunks.filter
               (fun c => c != ""))) != "" then
             ((env.genBackend (Chat.system_prompt confidence context_md prompt)).chunks.filter
                (fun c => c != ""),
               Chat.set_cached_response env.cache prompt
                 (String.join ((env.genBackend
                   (Chat.system_prompt confidence context_md prompt)).chunks.filter
                   (fun c => c != ""))))
           else
             ((env.genBackend (Chat.system_prompt confidence context_md prompt)).chunks.filter
                (fun c => c != ""), env.cache)) := by
    unfold Chat.msg_stream Chat.get_cached_response
    rw [hc]
  refine ⟨?_, ?_, ?_, ?_⟩
  · intro e hs
    rw [hbr, hs]
  · intro ctx conf e hs hg
    rw [hbr, hs]
    dsimp only
    rw [hg]
  · intro ctx conf hs hg hblank
    rw [hbr, hs]
    dsimp only
    rw [hg]
    dsimp only
    rw [hblank]
    simp
  · intro hne
    rw [hbr] at hne ⊢
    rcases hs : Chat.search_qdrant_context env prompt 3 with e | ⟨ctx, conf⟩
    · rw [hs] at hne
      exact absurd rfl hne
    · rw [hs] at hne
      dsimp only at hne ⊢
      rcases hg : (env.genBackend (Chat.system_prompt conf ctx prompt)).err with _ | e
      · rw [hg] at hne
        dsimp only at hne ⊢
        by_cases hb : pstrip (String.join ((env.genBackend
            (Chat.system_prompt conf ctx prompt)).chunks.filter (fun c => c != ""))) = ""
        · rw [hb] at hne
          simp at hne
        · refine ⟨ctx, conf, rfl, hg, hb, ?_⟩
          rw [if_pos (by simpa using hb)]
      · rw [hg] at hne
        exact absurd rfl hne

/-- Witness for C6 at an environment whose embedding backend raises. -/
theorem c6_witness :
    Chat.c6wenv.cache (Chat.normalize_query "q") = none ∧
    Chat.search_qdrant_context Chat.c6wenv "q" 3 = .error "Error fetching context from Qdrant" ∧
    Chat.msg_stream Chat.c6wenv "q" =
      (["Error: Error fetching context from Qdrant\n\n"], Chat.c6wenv.cache) :=
  ⟨rfl, rfl,
   (c6_cache_write_discipline Chat.c6wenv "q" rfl).1 "Error fetching context from Qdrant" rfl⟩
